import Mathlib

/-!
# Verification of the Angler TPIK controller

A shallow embedding of the task-priority inverse-kinematics (TPIK) controller
of the `angler` repository (`angler_planning/tpik/controller.py` and
`angler_planning/tpik/jacobian.py`), together with proofs and refutations of
the specification claims about it.

Matrices are embedded as Mathlib matrices over a scalar ring `α`: the solver
uses only ring operations, so it is stated over an arbitrary `CommRing`
(the source computes with real floating-point numbers; concrete evaluations
here instantiate `α` with `ℤ` or `ℚ`, on which the operations agree with the
real-number computation since no division or rounding is involved outside of
`np.linalg.pinv`).

`np.linalg.pinv` is an external library routine.  It is embedded as an
explicit oracle argument `pinv`, constrained where needed by its documented
contract: it returns the Moore-Penrose pseudoinverse (`IsMoorePenrose`,
which determines the matrix uniquely, see `moore_penrose_unique`).
-/

namespace Tpik

open Matrix

/-- The shape-polymorphic pseudoinverse oracle standing for `np.linalg.pinv`:
for an `a × b` matrix it returns a `b × a` matrix. -/
def PinvOracle (α : Type) : Type :=
  (a b : ℕ) → Matrix (Fin a) (Fin b) α → Matrix (Fin b) (Fin a) α

/-- The four Moore-Penrose conditions over a commutative ring (for real
matrices the conjugate transpose is the transpose).  `np.linalg.pinv` is
documented to return the unique matrix satisfying them. -/
def IsMoorePenrose {α : Type} [CommRing α] {m k : ℕ}
    (A : Matrix (Fin m) (Fin k) α) (P : Matrix (Fin k) (Fin m) α) : Prop :=
  A * P * A = A ∧ P * A * P = P ∧ (A * P)ᵀ = A * P ∧ (P * A)ᵀ = P * A

instance {α : Type} [CommRing α] [DecidableEq α] {m k : ℕ}
    (A : Matrix (Fin m) (Fin k) α) (P : Matrix (Fin k) (Fin m) α) :
    Decidable (IsMoorePenrose A P) :=
  decidable_of_iff
    (A * P * A = A ∧ P * A * P = P ∧ (A * P)ᵀ = A * P ∧ (P * A)ᵀ = P * A)
    Iff.rfl

/-- Modelled from the spec (§3 data model; the defining file
`tpik/constraint.py` is not part of the provided sources): an equality task
owns an `m × n` Jacobian, an `m`-dimensional error, a scalar gain and an
optional feed-forward derivative of the desired value. -/
structure EqualityTask (α : Type) (n : ℕ) where
  m : ℕ
  jacobian : Matrix (Fin m) (Fin n) α
  error : Fin m → α
  gain : α
  desired_value_dot : Option (Fin m → α)

/-- Modelled from the spec (§3 data model; the defining file
`tpik/constraint.py` is not part of the provided sources): a set task is a
single-row (`1 × n`) task that additionally carries its scalar current value,
an activation threshold `{lower, upper}` and an activation flag. -/
structure SetTask (α : Type) (n : ℕ) where
  jacobian : Fin n → α
  error : α
  gain : α
  desired_value_dot : Option α
  current_value : α
  lower : α
  upper : α
  active : Bool
  deriving DecidableEq

/-- A task of the hierarchy is either an equality task or a set task
(`list[EqualityTask | SetTask]` in the source). -/
def Task (α : Type) (n : ℕ) : Type :=
  EqualityTask α n ⊕ SetTask α n

namespace Task

/-- The row dimension `m` of the task's Jacobian (a set task is single-row). -/
def rows {α : Type} {n : ℕ} : Task α n → ℕ
  | .inl e => e.m
  | .inr _ => 1

/-- The task's Jacobian `t.jacobian`. -/
def jacobian {α : Type} {n : ℕ} : (t : Task α n) → Matrix (Fin (rows t)) (Fin n) α
  | .inl e => e.jacobian
  | .inr s => Matrix.of fun _ j => s.jacobian j

/-- The task's error `t.error`. -/
def error {α : Type} {n : ℕ} : (t : Task α n) → (Fin (rows t) → α)
  | .inl e => e.error
  | .inr s => fun _ => s.error

/-- The task's gain `t.gain`. -/
def gain {α : Type} {n : ℕ} : Task α n → α
  | .inl e => e.gain
  | .inr s => s.gain

/-- The task's optional feed-forward `t.desired_value_dot`. -/
def desired_value_dot {α : Type} {n : ℕ} :
    (t : Task α n) → Option (Fin (rows t) → α)
  | .inl e => e.desired_value_dot
  | .inr s => s.desired_value_dot.map fun d => fun _ => d

/-- Whether the task is a set task (`isinstance(y, SetTask)` in the source). -/
def isSet {α : Type} {n : ℕ} : Task α n → Bool
  | .inl _ => false
  | .inr _ => true

end Task

/-- The `np.vstack` of two matrices with equal column counts. -/
def np_vstack {α : Type} {a b n : ℕ} (A : Matrix (Fin a) (Fin n) α)
    (B : Matrix (Fin b) (Fin n) α) : Matrix (Fin (a + b)) (Fin n) α :=
  Matrix.of fun i j =>
    if h : (i : ℕ) < a then A ⟨i, h⟩ j else B ⟨(i : ℕ) - a, by omega⟩ j

/-- The total row count of the stacked Jacobians of a task list. -/
def totalRows {α : Type} {n : ℕ} : List (Task α n) → ℕ
  | [] => 0
  | t :: ts => Task.rows t + totalRows ts

/-- Source `construct_augmented_jacobian` (controller.py): the augmented
Jacobian `J_i^A = [J_1, J_2, ..., J_i]^T`, i.e. the `np.vstack` of the listed
Jacobians in order. -/
def construct_augmented_jacobian {α : Type} {n : ℕ} :
    (l : List (Task α n)) → Matrix (Fin (totalRows l)) (Fin n) α
  | [] => Matrix.of fun i _ => i.elim0
  | t :: ts => np_vstack (Task.jacobian t) (construct_augmented_jacobian ts)

/-- Source `calculate_nullspace` (controller.py):
`np.eye(J.shape[1]) - np.linalg.pinv(J) @ J`, with the external
`np.linalg.pinv(J)` call passed in as the already-computed argument
`pinvA`. -/
def calculate_nullspace {α : Type} [CommRing α] {m k : ℕ}
    (pinvA : Matrix (Fin k) (Fin m) α) (A : Matrix (Fin m) (Fin k) α) :
    Matrix (Fin k) (Fin k) α :=
  1 - pinvA * A

namespace TPIK

/-- Source `TPIK.calculate_system_velocity`'s inner
`calculate_system_velocity_rec` (controller.py, lines 214-249), translated
clause by clause:

* an empty hierarchy returns the `system_velocities` argument unchanged;
* otherwise, with `J`, `e`, `K = gain * eye(m)` and `t_dot`
  (`desired_value_dot`, or zero when absent) of the head task, it computes
  `updated = pinv(J @ nullspace) @ (t_dot + K @ e - J @ system_velocities)`,
  appends `J` to the Jacobian stack, recomputes the nullspace of the
  augmented Jacobian, and returns
  `updated + rec(rest, updated, stack, new_nullspace)`. -/
def calculate_system_velocity_rec {α : Type} [CommRing α] {n : ℕ}
    (pinv : PinvOracle α) :
    List (Task α n) → (Fin n → α) → List (Task α n) →
      Matrix (Fin n) (Fin n) α → (Fin n → α)
  | [], system_velocities, _, _ => system_velocities
  | t :: rest, system_velocities, prev_jacobians, nullspace =>
    let J := Task.jacobian t
    let e := Task.error t
    -- K = t.gain * np.eye(m), so K @ e = gain • e
    let t_dot := (Task.desired_value_dot t).getD 0
    let updated_system_velocities :=
      (pinv (Task.rows t) n (J * nullspace)).mulVec
        (t_dot + Task.gain t • e - J.mulVec system_velocities)
    let prev2 := prev_jacobians ++ [t]
    let A := construct_augmented_jacobian prev2
    let updated_nullspace := calculate_nullspace (pinv (totalRows prev2) n A) A
    updated_system_velocities +
      calculate_system_velocity_rec pinv rest updated_system_velocities
        prev2 updated_nullspace

/-- Source `TPIK.calculate_system_velocity` (controller.py, lines 198-253).
The initial accumulator is the zero vector (`np.zeros((6 + n_joints, 1))`;
its length `6 + n_manipulator_joints` equals the column count `n` of every
task Jacobian, the spec's §3 invariant), the Jacobian stack starts empty and
the initial nullspace is the identity
(`np.eye(hierarchy[0].jacobian.shape[1]) = np.eye(n)`). -/
def calculate_system_velocity {α : Type} [CommRing α] {n : ℕ}
    (pinv : PinvOracle α) (hierarchy : List (Task α n)) : Fin n → α :=
  calculate_system_velocity_rec pinv hierarchy 0 [] 1

end TPIK

/-- Modelled from the spec (§4.4): the claimed recursion
`v_i = v_{i-1} + pinv(J_i · N_{i-1}) · (tdot_i + K_i·e_i − J_i·v_{i-1})`
carried out on the accumulated velocity `v_{i-1}`, with
`N_i = I_n − pinv(J^A_i)·J^A_i` for the augmented Jacobian of the tasks
processed so far.  Written for comparison against
`TPIK.calculate_system_velocity`. -/
def priority_recursion_step {α : Type} [CommRing α] {n : ℕ}
    (pinv : PinvOracle α) :
    List (Task α n) → (Fin n → α) → List (Task α n) →
      Matrix (Fin n) (Fin n) α → (Fin n → α)
  | [], v, _, _ => v
  | t :: rest, v, prev, nullspace =>
    let J := Task.jacobian t
    let e := Task.error t
    let t_dot := (Task.desired_value_dot t).getD 0
    let increment :=
      (pinv (Task.rows t) n (J * nullspace)).mulVec
        (t_dot + Task.gain t • e - J.mulVec v)
    let prev2 := prev ++ [t]
    let A := construct_augmented_jacobian prev2
    let updated_nullspace := calculate_nullspace (pinv (totalRows prev2) n A) A
    priority_recursion_step pinv rest (v + increment) prev2 updated_nullspace

/-- Modelled from the spec (§4.4): the candidate system velocity `v_k`
obtained by the claimed strict induction on priority, starting from
`v_0 = 0` and `N_0 = I_n`. -/
def priority_recursion_velocity {α : Type} [CommRing α] {n : ℕ}
    (pinv : PinvOracle α) (hierarchy : List (Task α n)) : Fin n → α :=
  priority_recursion_step pinv hierarchy 0 [] 1

/-- The default absolute tolerance of `np.isclose(x, 0.0)`:
`atol = 1e-8` (the relative part `rtol * |0.0|` vanishes). -/
def isclose_atol (α : Type) [LinearOrderedField α] : α := 1 / 100000000

/-- The per-set-task feasibility check of `TPIK.update` (controller.py,
lines 287-303): with `projection = set_task.jacobian @ solution`, the
solution satisfies the set task when `current_value` is below the lower
activation threshold and the projection is positive, or `current_value` is
above the upper threshold and the projection is negative, or
`np.isclose(projection, 0.0)`. -/
def set_task_satisfied {α : Type} [LinearOrderedField α] {n : ℕ}
    (set_task : SetTask α n) (solution : Fin n → α) : Bool :=
  let projection := set_task.jacobian ⬝ᵥ solution
  if set_task.current_value < set_task.lower ∧ 0 < projection then true
  else if set_task.upper < set_task.current_value ∧ projection < 0 then true
  else if |projection| ≤ isclose_atol α then true
  else false

/-- The set tasks of a task list, in order
(`[t for t in l if isinstance(t, SetTask)]`). -/
def set_tasks_of {α : Type} {n : ℕ} (l : List (Task α n)) : List (SetTask α n) :=
  l.filterMap fun t => match t with
    | .inl _ => none
    | .inr s => some s

/-- The candidate-solution loop of `TPIK.update` (controller.py, lines
274-306): for each hierarchy in `hierarchies` compute its solution with
`calculate_system_velocity`, and keep it when every set task of
`active_task_hierarchy` satisfies the feasibility check. -/
def feasible_solutions {α : Type} [LinearOrderedField α] {n : ℕ}
    (pinv : PinvOracle α) (hierarchies : List (List (Task α n)))
    (active_task_hierarchy : List (Task α n)) : List (Fin n → α) :=
  hierarchies.filterMap fun hierarchy =>
    let solution := TPIK.calculate_system_velocity pinv hierarchy
    if (set_tasks_of active_task_hierarchy).all
        (fun set_task => set_task_satisfied set_task solution) then
      some solution
    else none

/-- The squared Euclidean norm of a velocity vector.  `np.linalg.norm`
computes `sqrt` of this; comparing squared norms compares norms, since
`sqrt` is monotone (see `norm_sq_le_iff_euclidean_norm_le`). -/
def norm_sq {α : Type} [CommRing α] {n : ℕ} (v : Fin n → α) : α :=
  ∑ i, v i ^ 2

/-- The Euclidean norm `np.linalg.norm` of a rational velocity vector. -/
noncomputable def euclidean_norm {n : ℕ} (v : Fin n → ℚ) : ℝ :=
  Real.sqrt ((norm_sq v : ℚ) : ℝ)

/-- One comparison step of the `np.argmax` selection: keep the candidate of
strictly larger squared norm, preferring the earlier one on ties (as
`np.argmax` returns the first maximising index). -/
def pick_larger {α : Type} [LinearOrderedField α] {n : ℕ}
    (best y : Fin n → α) : Fin n → α :=
  if norm_sq best < norm_sq y then y else best

/-- The solution selection of `TPIK.update` (controller.py, lines 310-316):
`solutions[np.argmax([np.linalg.norm(x) for x in solutions])]`.
`np.argmax` returns the first index attaining the maximum norm, which the
left fold of `pick_larger` computes.  On an empty list `np.argmax` raises,
the `except` branch logs and returns without publishing: `none`. -/
def select_max_norm {α : Type} [LinearOrderedField α] {n : ℕ} :
    List (Fin n → α) → Option (Fin n → α)
  | [] => none
  | x :: xs => some (xs.foldl pick_larger x)

/-- The set-task test of `TPIK.update` (controller.py, lines 264-266):
`any(any(isinstance(y, SetTask) for y in x) for x in hierarchies)`. -/
def has_set_tasks {α : Type} {n : ℕ} (hierarchies : List (List (Task α n))) : Bool :=
  hierarchies.any fun x => x.any Task.isSet

/-- The controller state read by `TPIK.update`: the two initialization
flags, and the candidate hierarchies (`self.hierarchy.hierarchies`, the
spec's `modes`) and active task hierarchy
(`self.hierarchy.active_task_hierarchy`) derived by the `TaskHierarchy`
collaborator (modelled from the spec §4.3; `tpik/hierarchy.py` is not part
of the provided sources). -/
structure ControllerState (α : Type) (n : ℕ) where
  description_received : Bool
  init_state_received : Bool
  hierarchies : List (List (Task α n))
  active_task_hierarchy : List (Task α n)

/-- Source `TPIK.initialized` (controller.py, lines 148-155):
`self._description_received and self._init_state_received`. -/
def TPIK.initialized {α : Type} {n : ℕ} (s : ControllerState α n) : Bool :=
  s.description_received && s.init_state_received

/-- The observable outcome of one `TPIK.update` call: the velocity handed to
`get_robot_trajectory_from_velocities` and published (`none` when the method
returns without publishing), the number of `calculate_system_velocity`
invocations performed, and the controller state afterwards (`update`
mutates nothing). -/
structure UpdateOutcome (α : Type) (n : ℕ) where
  published : Option (Fin n → α)
  solver_invocations : ℕ
  final : ControllerState α n

/-- Source `TPIK.update` (controller.py, lines 255-320): return immediately
while not initialized; with no set task in the hierarchies, publish the
solution of `hierarchies[0]`; otherwise compute every candidate solution,
keep the feasible ones, and publish the one of maximal norm — when none is
feasible, `np.argmax` on the empty list raises, the handler logs a warning
and the method returns without publishing. -/
def TPIK.update {α : Type} [LinearOrderedField α] {n : ℕ}
    (pinv : PinvOracle α) (s : ControllerState α n) : UpdateOutcome α n :=
  if TPIK.initialized s = false then
    { published := none, solver_invocations := 0, final := s }
  else if has_set_tasks s.hierarchies = false then
    { published := some (TPIK.calculate_system_velocity pinv (s.hierarchies.headD [])),
      solver_invocations := 1, final := s }
  else
    { published :=
        select_max_norm (feasible_solutions pinv s.hierarchies s.active_task_hierarchy),
      solver_invocations := s.hierarchies.length, final := s }

/-- The `geometry_msgs/Twist` velocity fields set by
`get_robot_trajectory_from_velocities`. -/
structure Twist (α : Type) where
  linear_x : α
  linear_y : α
  linear_z : α
  angular_x : α
  angular_y : α
  angular_z : α
  deriving DecidableEq

/-- The fields of the outbound `moveit_msgs/RobotTrajectory` message that
`get_robot_trajectory_from_velocities` populates. -/
structure RobotTrajectoryMsg (α : Type) where
  multi_dof_joint_names : List String
  vehicle_velocities : List (Twist α)
  joint_names : List String
  joint_velocities : List α
  deriving DecidableEq

/-- Source `TPIK.get_robot_trajectory_from_velocities` (controller.py, lines
322-362), for a system velocity of length `6 + k`:

* the vehicle twist takes `system_velocities[:6, 0]` in order
  `linear.x, linear.y, linear.z, angular.x, angular.y, angular.z`;
* the manipulator command is `[0.0] + list(system_velocities[6:, 0])`
  (the leading fixed joint rate, then the trailing entries in chain order);
* the joint names are `["alpha_axis_a"]` followed by the serial chain's
  joint names reversed (`[::-1]`; the chain name list is the external
  collaborator's `get_joint_parameter_names()`, passed in as an argument). -/
def TPIK.get_robot_trajectory_from_velocities {α : Type} [Zero α] {k : ℕ}
    (chain_joint_names : List String) (system_velocities : Fin (6 + k) → α) :
    RobotTrajectoryMsg α :=
  { multi_dof_joint_names := ["vehicle"]
    vehicle_velocities :=
      [{ linear_x := system_velocities ⟨0, by omega⟩
         linear_y := system_velocities ⟨1, by omega⟩
         linear_z := system_velocities ⟨2, by omega⟩
         angular_x := system_velocities ⟨3, by omega⟩
         angular_y := system_velocities ⟨4, by omega⟩
         angular_z := system_velocities ⟨5, by omega⟩ }]
    joint_names := "alpha_axis_a" :: chain_joint_names.reverse
    joint_velocities :=
      0 :: List.ofFn fun i : Fin k =>
        system_velocities ⟨6 + (i : ℕ), by omega⟩ }

/-- The task kinds dispatched on by `TPIK.update_context` (controller.py,
lines 364-423). -/
inductive ContextTaskKind : Type
  | jointLimit
  | vehicleRollPitch
  | manipulatorConfiguration
  | vehicleYaw
  | vehicleOrientation
  | endEffectorPose
  deriving DecidableEq

/-- Source `TPIK.update_context` (controller.py, lines 364-423), abstracted
over the per-kind `task.update(...)` computations (they live in
`tpik/tasks.py`, which is not part of the provided sources; modelled from
the spec §4.2 as functions recomputing the task's values `σ` from the state
snapshot).  Each task in the hierarchy is visited in order:

* for every kind except `EndEffectorPose` the task's values are recomputed
  unconditionally by `state_update`;
* an `EndEffectorPose` task first looks up two transforms; when either
  lookup raises `TransformException` (`none` here) the handler logs and
  `continue`s, leaving that task's values untouched and moving on to the
  next task; otherwise the task is updated with both transforms by
  `ee_update`. -/
def TPIK.update_context {σ τ : Type}
    (state_update : ContextTaskKind → σ → σ) (ee_update : σ → τ → τ → σ)
    (tf_manipulator_base_to_base : Option τ) (tf_map_to_ee : Option τ)
    (tasks : List (ContextTaskKind × σ)) : List (ContextTaskKind × σ) :=
  tasks.map fun task =>
    match task.1 with
    | .endEffectorPose =>
      match tf_manipulator_base_to_base with
      | none => task
      | some tf1 =>
        match tf_map_to_ee with
        | none => task
        | some tf2 => (task.1, ee_update task.2 tf1 tf2)
    | k => (k, state_update k task.2)

/-- The numpy basic-indexing row assignment `J[i] = x` on an `r × c` array:
when `i < r` it broadcasts the scalar over row `i`; otherwise numpy raises
an `IndexError` (`none` here). -/
def np_row_assign {α : Type} {r c : ℕ} (J : Matrix (Fin r) (Fin c) α)
    (i : ℕ) (x : α) : Option (Matrix (Fin r) (Fin c) α) :=
  if i < r then
    some (Matrix.of fun a b => if (a : ℕ) = i then x else J a b)
  else none

/-- Source `calculate_joint_limit_jacobian` (jacobian.py, lines 195-210):
`J = np.zeros((1, 6 + num_manipulator_joints)); J[joint_index] = 1` — note
that `J[joint_index]` indexes the row axis of the `1 × n` array, not a
column. -/
def calculate_joint_limit_jacobian {α : Type} [Zero α] [One α]
    (joint_index num_manipulator_joints : ℕ) :
    Option (Matrix (Fin 1) (Fin (6 + num_manipulator_joints)) α) :=
  np_row_assign (Matrix.of fun _ _ => 0) joint_index 1

/-- Modelled from the spec (§4.1): the claimed joint-limit Jacobian, a
`1 × (6 + num_manipulator_joints)` row that is zero except for a single `1`
in the column of the selected joint-rate component. -/
def joint_limit_unit_row {α : Type} [Zero α] [One α]
    (joint_index num_manipulator_joints : ℕ) :
    Matrix (Fin 1) (Fin (6 + num_manipulator_joints)) α :=
  Matrix.of fun _ j => if (j : ℕ) = joint_index then 1 else 0

/-- The `np.cross` of two 3-vectors. -/
def np_cross (a b : Fin 3 → ℝ) : Fin 3 → ℝ :=
  ![a 1 * b 2 - a 2 * b 1, a 2 * b 0 - a 0 * b 2, a 0 * b 1 - a 1 * b 0]

/-- The `np.linalg.norm` of a 3-vector. -/
noncomputable def np_norm3 (v : Fin 3 → ℝ) : ℝ :=
  Real.sqrt (v 0 ^ 2 + v 1 ^ 2 + v 2 ^ 2)

/-- Source `calculate_vehicle_manipulator_collision_avoidance_jacobian`
(jacobian.py, lines 213-243), with the external kinpy manipulator Jacobian
(`serial_chain.jacobian(joint_angles)`, a `6 × k` matrix) passed in as the
argument `J_man`:

* `plane_normal = np.cross(p2 - p1, p3 - p1) / ‖np.cross(p2 - p1, p3 - p1)‖`;
* `J_pos` is the first three rows of `J_man`;
* `J = np.zeros((3, 6 + k)); J[:, 6:] = -plane_normal.T @ J_pos` — the
  1-D row `-plane_normal @ J_pos` is broadcast over the three rows, and the
  first six (vehicle) columns stay zero.

Columns are indexed by `Fin 6 ⊕ Fin k`: `inl` for the vehicle block
(`J[:, :6]`), `inr` for the manipulator block (`J[:, 6:]`). -/
noncomputable def calculate_vehicle_manipulator_collision_avoidance_jacobian
    {k : ℕ} (p1 p2 p3 : Fin 3 → ℝ) (J_man : Matrix (Fin 6) (Fin k) ℝ) :
    Matrix (Fin 3) (Fin 6 ⊕ Fin k) ℝ :=
  let c := np_cross (fun i => p2 i - p1 i) (fun i => p3 i - p1 i)
  let plane_normal : Fin 3 → ℝ := fun i => c i / np_norm3 c
  let J_pos : Matrix (Fin 3) (Fin k) ℝ :=
    Matrix.of fun r j => J_man (Fin.castLE (by omega) r) j
  Matrix.of fun _ j =>
    match j with
    | .inl _ => 0
    | .inr jc => -(∑ r : Fin 3, plane_normal r * J_pos r jc)

/-- Modelled from the spec (§4.1): the unit outward normal of the plane
through `p1, p2, p3`, the normalized cross product of the two edge vectors
`(p2 − p1) × (p3 − p1)`. -/
noncomputable def plane_unit_normal (p1 p2 p3 : Fin 3 → ℝ) : Fin 3 → ℝ :=
  fun i =>
    np_cross (fun r => p2 r - p1 r) (fun r => p3 r - p1 r) i /
      np_norm3 (np_cross (fun r => p2 r - p1 r) (fun r => p3 r - p1 r))

/-- Modelled from the spec (§4.1): the projection of column `j` of the
manipulator linear Jacobian (the first three rows of the full manipulator
Jacobian) onto a direction `d`. -/
def linear_jacobian_projection {k : ℕ} (d : Fin 3 → ℝ)
    (J_man : Matrix (Fin 6) (Fin k) ℝ) (j : Fin k) : ℝ :=
  ∑ r : Fin 3, d r * J_man (Fin.castLE (by omega) r) j

/-- A transpose oracle over ℤ.  At every matrix it is applied to in the
concrete runs below it is verified (inside the theorems) to satisfy the
Moore-Penrose conditions, hence to agree with `np.linalg.pinv` there
(`moore_penrose_unique`). -/
def pinv_transpose : PinvOracle ℤ := fun _ _ M => Mᵀ

/-- A single-row equality task selecting the first system-velocity
component (for example a vehicle-surge task): `J = [1 0 0 0 0 0]`,
`e = [1]`, `K = 1`, no feed-forward. -/
def task_x : Task ℤ 6 :=
  Sum.inl { m := 1, jacobian := Matrix.of ![![1, 0, 0, 0, 0, 0]], error := ![1],
            gain := 1, desired_value_dot := none }

/-- A second single-row equality task selecting the second system-velocity
component: `J = [0 1 0 0 0 0]`, `e = [1]`, `K = 1`, no feed-forward. -/
def task_y : Task ℤ 6 :=
  Sum.inl { m := 1, jacobian := Matrix.of ![![0, 1, 0, 0, 0, 0]], error := ![1],
            gain := 1, desired_value_dot := none }

/-- The concrete chain joint names of a 2-joint manipulator, base to end
effector, as returned by `serial_chain.get_joint_parameter_names()`. -/
def chain_names_2 : List String := ["alpha_axis_e", "alpha_axis_d"]

/-- A concrete resolved system velocity for `n = 6 + 2`: vehicle part
`(10, 11, 12, 13, 14, 15)`, manipulator part `(21, 22)` in chain order. -/
def velocities_8 : Fin (6 + 2) → ℤ := ![10, 11, 12, 13, 14, 15, 21, 22]

/-- A concrete uninitialized controller state: the robot description has
arrived but no state snapshot yet. -/
def state_uninit : ControllerState ℚ 1 :=
  { description_received := true, init_state_received := false,
    hierarchies := [], active_task_hierarchy := [] }

/-- A transpose oracle over ℚ, used by the concrete controller runs. -/
def pinv_transpose_q : PinvOracle ℚ := fun _ _ M => Mᵀ

/-- A concrete two-task context: an end-effector-pose task and a
vehicle-yaw task with natural-number payloads. -/
def tasks_ctx : List (ContextTaskKind × ℕ) :=
  [(ContextTaskKind.endEffectorPose, 5), (ContextTaskKind.vehicleYaw, 7)]

/-- A set task near its lower bound (`current_value = 0 < lower = 1`)
whose solver fields drive the first component negative: the solutions it
meets below violate its sign check. -/
def set_task_violated : SetTask ℚ 1 :=
  { jacobian := ![1], error := -1, gain := 1, desired_value_dot := none,
    current_value := 0, lower := 1, upper := 2, active := true }

/-- A controller state with one candidate mode, whose single (set) task
yields the solution `(-2)` — projection `-2`, pointing further below the
violated lower bound, hence infeasible. -/
def state_infeasible : ControllerState ℚ 1 :=
  { description_received := true, init_state_received := true,
    hierarchies := [[Sum.inr set_task_violated]],
    active_task_hierarchy := [Sum.inr set_task_violated] }

/-- A set task near its lower bound whose projection is positive for the
solutions of the two candidate modes below: both candidates are feasible. -/
def set_task_near_lower : SetTask ℚ 1 :=
  { jacobian := ![1], error := 0, gain := 0, desired_value_dot := none,
    current_value := 0, lower := 1, upper := 2, active := true }

/-- The first candidate mode's equality task (error `1`). -/
def eq_task_small : EqualityTask ℚ 1 :=
  { m := 1, jacobian := Matrix.of ![![1]], error := ![1], gain := 1,
    desired_value_dot := none }

/-- The second candidate mode's equality task (error `2`): its mode's
solution has the larger norm. -/
def eq_task_large : EqualityTask ℚ 1 :=
  { m := 1, jacobian := Matrix.of ![![1]], error := ![2], gain := 1,
    desired_value_dot := none }

/-- A controller state with two candidate modes sharing the single active
set task, yielding feasible solutions of norms 1 and 2. -/
def state_two_modes : ControllerState ℚ 1 :=
  { description_received := true, init_state_received := true,
    hierarchies := [[Sum.inl eq_task_small, Sum.inr set_task_near_lower],
                    [Sum.inl eq_task_large, Sum.inr set_task_near_lower]],
    active_task_hierarchy := [Sum.inl eq_task_small, Sum.inr set_task_near_lower] }

/-- A set task above its upper bound (`current_value = 3 > upper = 2`)
whose sign check fails for every positive projection. -/
def set_task_above_upper : SetTask ℚ 1 :=
  { jacobian := ![1], error := 0, gain := 0, desired_value_dot := none,
    current_value := 3, lower := 1, upper := 2, active := true }

/-- A controller state whose two candidate modes are a genuine activation
combination: the first mode contains no set task at all, the second —
also the active task hierarchy — contains the active set task
`set_task_above_upper`. -/
def state_mixed_modes : ControllerState ℚ 1 :=
  { description_received := true, init_state_received := true,
    hierarchies := [[Sum.inl eq_task_small],
                    [Sum.inl eq_task_small, Sum.inr set_task_above_upper]],
    active_task_hierarchy := [Sum.inl eq_task_small, Sum.inr set_task_above_upper] }

/-- The first point of the example collision plane: the origin. -/
def plane_p1 : Fin 3 → ℝ := fun _ => 0

/-- The second point of the example collision plane: `(1, 0, 0)`. -/
def plane_p2 : Fin 3 → ℝ := fun i => if i = 0 then 1 else 0

/-- The third point of the example collision plane: `(0, 1, 0)`. -/
def plane_p3 : Fin 3 → ℝ := fun i => if i = 1 then 1 else 0

/-- A concrete one-joint manipulator Jacobian. -/
def J_man_example : Matrix (Fin 6) (Fin 1) ℝ :=
  Matrix.of ![![2], ![3], ![5], ![7], ![11], ![13]]

/-- The Moore-Penrose conditions determine the pseudoinverse uniquely, so
any oracle verified to satisfy `IsMoorePenrose` at the matrices it is
applied to agrees there with `np.linalg.pinv`. -/
theorem moore_penrose_unique {α : Type} [CommRing α] {m k : ℕ}
    (A : Matrix (Fin m) (Fin k) α) (P Q : Matrix (Fin k) (Fin m) α)
    (hP : IsMoorePenrose A P) (hQ : IsMoorePenrose A Q) : P = Q := by
  obtain ⟨hP1, hP2, hP3, hP4⟩ := hP
  obtain ⟨hQ1, hQ2, hQ3, hQ4⟩ := hQ
  have hAP : A * P = A * Q := by
    calc A * P = (A * P)ᵀᵀ := by rw [Matrix.transpose_transpose]
      _ = (Pᵀ * Aᵀ)ᵀ := by rw [Matrix.transpose_mul]
      _ = (Pᵀ * (A * Q * A)ᵀ)ᵀ := by rw [hQ1]
      _ = (Pᵀ * (Aᵀ * (A * Q)ᵀ))ᵀ := by rw [Matrix.transpose_mul (A * Q) A]
      _ = ((Pᵀ * Aᵀ) * (A * Q)ᵀ)ᵀ := by rw [Matrix.mul_assoc]
      _ = ((A * P)ᵀ * (A * Q)ᵀ)ᵀ := by rw [Matrix.transpose_mul A P]
      _ = ((A * P) * (A * Q))ᵀ := by rw [hP3, hQ3]
      _ = (A * P * A * Q)ᵀ := by rw [Matrix.mul_assoc (A * P) A Q]
      _ = (A * Q)ᵀ := by rw [hP1]
      _ = A * Q := hQ3
  have hPA : P * A = Q * A := by
    calc P * A = (P * A)ᵀᵀ := by rw [Matrix.transpose_transpose]
      _ = (Aᵀ * Pᵀ)ᵀ := by rw [Matrix.transpose_mul]
      _ = ((A * (Q * A))ᵀ * Pᵀ)ᵀ := by rw [← Matrix.mul_assoc, hQ1]
      _ = (((Q * A)ᵀ * Aᵀ) * Pᵀ)ᵀ := by rw [Matrix.transpose_mul A (Q * A)]
      _ = ((Q * A)ᵀ * (Aᵀ * Pᵀ))ᵀ := by rw [Matrix.mul_assoc]
      _ = ((Q * A)ᵀ * (P * A)ᵀ)ᵀ := by rw [Matrix.transpose_mul P A]
      _ = ((Q * A) * (P * A))ᵀ := by rw [hQ4, hP4]
      _ = (Q * (A * P * A))ᵀ := by rw [Matrix.mul_assoc Q A (P * A),
            Matrix.mul_assoc A P A]
      _ = (Q * A)ᵀ := by rw [hP1]
      _ = Q * A := hQ4
  calc P = P * A * P := hP2.symm
    _ = Q * A * P := by rw [hPA]
    _ = Q * (A * P) := by rw [Matrix.mul_assoc]
    _ = Q * (A * Q) := by rw [hAP]
    _ = Q * A * Q := by rw [Matrix.mul_assoc]
    _ = Q := hQ2

/-- C9: for every real matrix `A` (any augmented Jacobian) with
Moore-Penrose pseudoinverse `P = pinv(A)`, the projector
`N = I − pinv(A)·A` computed by `calculate_nullspace` is idempotent
(`N·N = N`) and symmetric (`Nᵀ = N`). -/
theorem calculate_nullspace_idempotent_and_symmetric {m k : ℕ}
    (A : Matrix (Fin m) (Fin k) ℝ) (P : Matrix (Fin k) (Fin m) ℝ)
    (h : IsMoorePenrose A P) :
    calculate_nullspace P A * calculate_nullspace P A = calculate_nullspace P A ∧
      (calculate_nullspace P A)ᵀ = calculate_nullspace P A := by
  obtain ⟨_, h2, _, h4⟩ := h
  constructor
  · have hPAPA : P * A * (P * A) = P * A := by
      calc P * A * (P * A) = P * A * P * A := by rw [Matrix.mul_assoc (P * A) P A]
        _ = P * A := by rw [h2]
    calc calculate_nullspace P A * calculate_nullspace P A
        = 1 - P * A - P * A + P * A * (P * A) := by
          unfold calculate_nullspace; noncomm_ring
      _ = 1 - P * A - P * A + P * A := by rw [hPAPA]
      _ = calculate_nullspace P A := by unfold calculate_nullspace; noncomm_ring
  · calc (calculate_nullspace P A)ᵀ
        = (1 : Matrix (Fin k) (Fin k) ℝ)ᵀ - (P * A)ᵀ := by
          unfold calculate_nullspace; rw [Matrix.transpose_sub]
      _ = 1 - P * A := by rw [Matrix.transpose_one, h4]
      _ = calculate_nullspace P A := rfl

/-- Witness for C9: the Moore-Penrose conditions hold for the concrete pair
`A = P = I₁`, and the theorem applies there. -/
theorem calculate_nullspace_idempotent_and_symmetric_witness :
    IsMoorePenrose (1 : Matrix (Fin 1) (Fin 1) ℝ) 1 ∧
      (calculate_nullspace (1 : Matrix (Fin 1) (Fin 1) ℝ) 1 *
          calculate_nullspace (1 : Matrix (Fin 1) (Fin 1) ℝ) 1 =
        calculate_nullspace (1 : Matrix (Fin 1) (Fin 1) ℝ) 1 ∧
        (calculate_nullspace (1 : Matrix (Fin 1) (Fin 1) ℝ) 1)ᵀ =
          calculate_nullspace (1 : Matrix (Fin 1) (Fin 1) ℝ) 1) :=
  have hmp : IsMoorePenrose (1 : Matrix (Fin 1) (Fin 1) ℝ) 1 :=
    ⟨by simp, by simp, by simp, by simp⟩
  ⟨hmp, calculate_nullspace_idempotent_and_symmetric 1 1 hmp⟩

/-- C1 (code bug evidence): on the two-task hierarchy `[task_x, task_y]`
with `n = 6` (a vehicle with no manipulator joints),
`calculate_system_velocity` returns `(1, 2, 0, 0, 0, 0)` whereas the
claimed strict induction on priority yields `v_2 = (1, 1, 0, 0, 0, 0)`:
the recursion's base case returns its accumulated argument instead of zero,
so the last task's increment is added twice.  The final conjuncts verify
that the transpose oracle is the genuine Moore-Penrose pseudoinverse at all
four matrices `pinv` is applied to during both runs. -/
theorem calculate_system_velocity_deviates_from_priority_recursion :
    TPIK.calculate_system_velocity pinv_transpose [task_x, task_y] =
      ![1, 2, 0, 0, 0, 0] ∧
    priority_recursion_velocity pinv_transpose [task_x, task_y] =
      ![1, 1, 0, 0, 0, 0] ∧
    TPIK.calculate_system_velocity pinv_transpose [task_x, task_y] ≠
      priority_recursion_velocity pinv_transpose [task_x, task_y] ∧
    IsMoorePenrose (Task.jacobian task_x * (1 : Matrix (Fin 6) (Fin 6) ℤ))
      (pinv_transpose (Task.rows task_x) 6
        (Task.jacobian task_x * (1 : Matrix (Fin 6) (Fin 6) ℤ))) ∧
    IsMoorePenrose (construct_augmented_jacobian [task_x])
      (pinv_transpose (totalRows [task_x]) 6
        (construct_augmented_jacobian [task_x])) ∧
    IsMoorePenrose
      (Task.jacobian task_y *
        calculate_nullspace
          (pinv_transpose (totalRows [task_x]) 6
            (construct_augmented_jacobian [task_x]))
          (construct_augmented_jacobian [task_x]))
      (pinv_transpose (Task.rows task_y) 6
        (Task.jacobian task_y *
          calculate_nullspace
            (pinv_transpose (totalRows [task_x]) 6
              (construct_augmented_jacobian [task_x]))
            (construct_augmented_jacobian [task_x]))) ∧
    IsMoorePenrose (construct_augmented_jacobian [task_x, task_y])
      (pinv_transpose (totalRows [task_x, task_y]) 6
        (construct_augmented_jacobian [task_x, task_y])) := by
  decide

/-- C4 (code bug evidence): on the hierarchy containing exactly the one
equality task `task_x`, whose Jacobian has full row rank (witnessed by
`J * Jᵀ = I₁`), `calculate_system_velocity` returns `(2, 0, 0, 0, 0, 0)` —
twice the closed form `pinv(J)·(tdot + K·e) = (1, 0, 0, 0, 0, 0)` — because
the recursion's base case returns the just-computed velocity again instead
of zero.  The Moore-Penrose conjunct verifies the oracle is the genuine
pseudoinverse at the only matrix it is applied to. -/
theorem calculate_system_velocity_single_task_doubles_closed_form :
    TPIK.calculate_system_velocity pinv_transpose [task_x] =
      ![2, 0, 0, 0, 0, 0] ∧
    (pinv_transpose (Task.rows task_x) 6 (Task.jacobian task_x)).mulVec
        ((0 : Fin (Task.rows task_x) → ℤ) +
          Task.gain task_x • Task.error task_x) =
      ![1, 0, 0, 0, 0, 0] ∧
    TPIK.calculate_system_velocity pinv_transpose [task_x] ≠
      (pinv_transpose (Task.rows task_x) 6 (Task.jacobian task_x)).mulVec
        ((0 : Fin (Task.rows task_x) → ℤ) +
          Task.gain task_x • Task.error task_x) ∧
    Task.jacobian task_x * (Task.jacobian task_x)ᵀ = 1 ∧
    IsMoorePenrose (Task.jacobian task_x * (1 : Matrix (Fin 6) (Fin 6) ℤ))
      (pinv_transpose (Task.rows task_x) 6
        (Task.jacobian task_x * (1 : Matrix (Fin 6) (Fin 6) ℤ))) ∧
    IsMoorePenrose (construct_augmented_jacobian [task_x])
      (pinv_transpose (totalRows [task_x]) 6
        (construct_augmented_jacobian [task_x])) := by
  decide

/-- C7 (code bug evidence): on a manipulator with 2 joints,
`calculate_joint_limit_jacobian 0` sets the whole `1 × 8` row to ones
(`J[0] = 1` broadcasts over the row axis of the `1 × n` array), which is
not the claimed unit row with a single `1` in column 0; and for every
`joint_index ≥ 1` (here `1`) the row assignment is out of bounds and numpy
raises an `IndexError` instead of returning a matrix. -/
theorem calculate_joint_limit_jacobian_sets_whole_row :
    (calculate_joint_limit_jacobian (α := ℤ) 0 2).isSome = true ∧
    (calculate_joint_limit_jacobian (α := ℤ) 0 2).getD 0 =
      (Matrix.of fun _ _ => 1) ∧
    (calculate_joint_limit_jacobian (α := ℤ) 0 2).getD 0 ≠
      joint_limit_unit_row (α := ℤ) 0 2 ∧
    calculate_joint_limit_jacobian (α := ℤ) 1 2 = none := by
  decide

/-- C5 (code bug evidence): `get_robot_trajectory_from_velocities` assigns
the leading six entries to the twist fields in order (as claimed) and
re-inserts the fixed leading joint's rate as `0`, but it emits the trailing
entries in chain order, `[0, 21, 22]`, against the reversed joint-name list
`["alpha_axis_a", "alpha_axis_d", "alpha_axis_e"]` — not reversed into the
message's joint order `[0, 22, 21]` as claimed, so each named joint is
paired with the other joint's rate. -/
theorem get_robot_trajectory_velocities_not_reversed :
    TPIK.get_robot_trajectory_from_velocities chain_names_2 velocities_8 =
      { multi_dof_joint_names := ["vehicle"]
        vehicle_velocities :=
          [{ linear_x := 10, linear_y := 11, linear_z := 12,
             angular_x := 13, angular_y := 14, angular_z := 15 }]
        joint_names := ["alpha_axis_a", "alpha_axis_d", "alpha_axis_e"]
        joint_velocities := [0, 21, 22] } ∧
    ([0, 21, 22] : List ℤ) ≠ 0 :: ([21, 22] : List ℤ).reverse := by
  decide

/-- C10: a control tick that arrives before both the robot description and
an initial robot state snapshot have been received (`initialized` is false,
i.e. at least one of the two flags is unset) publishes nothing, performs no
`calculate_system_velocity` invocation, and leaves the controller state —
including every hierarchy and task — exactly as it was. -/
theorem update_before_initialization_is_noop {α : Type} [LinearOrderedField α]
    {n : ℕ} (pinv : PinvOracle α) (s : ControllerState α n)
    (h : s.description_received = false ∨ s.init_state_received = false) :
    TPIK.update pinv s =
      { published := none, solver_invocations := 0, final := s } := by
  have hinit : TPIK.initialized s = false := by
    rcases h with h | h <;> simp [TPIK.initialized, h]
  simp [TPIK.update, hinit]

/-- Witness for C10: the theorem applied to the concrete state
`state_uninit`. -/
theorem update_before_initialization_is_noop_witness :
    (state_uninit.description_received = false ∨
      state_uninit.init_state_received = false) ∧
    TPIK.update pinv_transpose_q state_uninit =
      { published := none, solver_invocations := 0, final := state_uninit } :=
  ⟨Or.inr rfl,
    update_before_initialization_is_noop pinv_transpose_q state_uninit
      (Or.inr rfl)⟩

/-- C6: during an `update_context` pass in which a required transform
lookup fails (either of the two lookups returns `none`, numpy-side a
`TransformException`), every end-effector-pose task — the task kind whose
update consumes the transforms — keeps exactly its previous values (the
handler logs and `continue`s without touching the task), the failure does
not escape `update_context` (which is a total function returning the full
task list), and every other task in the hierarchy is still updated that
cycle. -/
theorem update_context_preserves_task_on_failed_lookup {σ τ : Type}
    (state_update : ContextTaskKind → σ → σ) (ee_update : σ → τ → τ → σ)
    (tf1 tf2 : Option τ) (tasks : List (ContextTaskKind × σ))
    (hfail : tf1 = none ∨ tf2 = none) :
    (TPIK.update_context state_update ee_update tf1 tf2 tasks).length =
      tasks.length ∧
    (∀ i task, tasks.get? i = some task →
      task.1 = ContextTaskKind.endEffectorPose →
      (TPIK.update_context state_update ee_update tf1 tf2 tasks).get? i =
        some task) ∧
    (∀ i task, tasks.get? i = some task →
      task.1 ≠ ContextTaskKind.endEffectorPose →
      (TPIK.update_context state_update ee_update tf1 tf2 tasks).get? i =
        some (task.1, state_update task.1 task.2)) := by
  refine ⟨by simp [TPIK.update_context], ?_, ?_⟩
  · intro i task hi hkind
    obtain ⟨k, v⟩ := task
    simp only at hkind
    subst hkind
    rcases hfail with h | h
    · subst h
      unfold TPIK.update_context
      rw [List.get?_map, hi]
      rfl
    · subst h
      unfold TPIK.update_context
      rw [List.get?_map, hi]
      cases tf1 <;> rfl
  · intro i task hi hkind
    obtain ⟨k, v⟩ := task
    simp only [ne_eq] at hkind
    unfold TPIK.update_context
    rw [List.get?_map, hi]
    cases k
    case endEffectorPose => exact absurd rfl hkind
    all_goals rfl

/-- Witness for C6: the theorem applied with the first transform lookup
failing, a successor payload update, and the concrete task list
`tasks_ctx`. -/
theorem update_context_preserves_task_on_failed_lookup_witness :
    ((none : Option Unit) = none ∨ (some () : Option Unit) = none) ∧
    ((TPIK.update_context (fun _ x => x + 1) (fun x _ _ => x + 10)
        (none : Option Unit) (some ()) tasks_ctx).length = tasks_ctx.length ∧
      (∀ i task, tasks_ctx.get? i = some task →
        task.1 = ContextTaskKind.endEffectorPose →
        (TPIK.update_context (fun _ x => x + 1) (fun x _ _ => x + 10)
          (none : Option Unit) (some ()) tasks_ctx).get? i = some task) ∧
      (∀ i task, tasks_ctx.get? i = some task →
        task.1 ≠ ContextTaskKind.endEffectorPose →
        (TPIK.update_context (fun _ x => x + 1) (fun x _ _ => x + 10)
          (none : Option Unit) (some ()) tasks_ctx).get? i =
          some (task.1, task.2 + 1))) :=
  ⟨Or.inl rfl,
    update_context_preserves_task_on_failed_lookup (fun _ x => x + 1)
      (fun x _ _ => x + 10) none (some ()) tasks_ctx (Or.inl rfl)⟩

/-- The boolean feasibility check equals the spec's sign-check disjunction:
the projected velocity points away from the violated bound, or is
numerically close to zero. -/
theorem set_task_satisfied_iff {α : Type} [LinearOrderedField α] {n : ℕ}
    (st : SetTask α n) (v : Fin n → α) :
    set_task_satisfied st v = true ↔
      (st.current_value < st.lower ∧ 0 < st.jacobian ⬝ᵥ v) ∨
      (st.upper < st.current_value ∧ st.jacobian ⬝ᵥ v < 0) ∨
      |st.jacobian ⬝ᵥ v| ≤ isclose_atol α := by
  simp only [set_task_satisfied]
  split_ifs with h1 h2 h3
  · exact iff_of_true rfl (Or.inl h1)
  · exact iff_of_true rfl (Or.inr (Or.inl h2))
  · exact iff_of_true rfl (Or.inr (Or.inr h3))
  · exact iff_of_false (by simp) (by tauto)

/-- The left fold of `pick_larger` selects a member of the list of maximal
squared norm. -/
theorem foldl_pick_larger_spec {α : Type} [LinearOrderedField α] {n : ℕ} :
    ∀ (xs : List (Fin n → α)) (x : Fin n → α),
      xs.foldl pick_larger x ∈ x :: xs ∧
        ∀ u ∈ x :: xs, norm_sq u ≤ norm_sq (xs.foldl pick_larger x) := by
  intro xs
  induction xs with
  | nil => intro x; simp
  | cons y ys ih =>
    intro x
    rw [List.foldl_cons]
    obtain ⟨hmem, hmax⟩ := ih (pick_larger x y)
    have hp : pick_larger x y = y ∨ pick_larger x y = x := by
      unfold pick_larger; split_ifs <;> simp
    constructor
    · rcases List.mem_cons.mp hmem with h | h
      · rcases hp with h2 | h2 <;> rw [h, h2] <;> simp
      · exact List.mem_cons_of_mem _ (List.mem_cons_of_mem _ h)
    · intro u hu
      rcases List.mem_cons.mp hu with hu1 | hu2
      · subst hu1
        have h1 : norm_sq u ≤ norm_sq (pick_larger u y) := by
          unfold pick_larger; split_ifs with hc
          · exact le_of_lt hc
          · exact le_refl _
        exact le_trans h1 (hmax _ (List.mem_cons_self _ _))
      · rcases List.mem_cons.mp hu2 with hu3 | hu4
        · subst hu3
          have h1 : norm_sq u ≤ norm_sq (pick_larger x u) := by
            unfold pick_larger; split_ifs with hc
            · exact le_refl _
            · exact le_of_not_lt hc
          exact le_trans h1 (hmax _ (List.mem_cons_self _ _))
        · exact hmax _ (List.mem_cons_of_mem _ hu4)

/-- A selected solution is a member of the candidate list and has maximal
squared norm among the candidates. -/
theorem select_max_norm_spec {α : Type} [LinearOrderedField α] {n : ℕ}
    (l : List (Fin n → α)) (v : Fin n → α) (h : select_max_norm l = some v) :
    v ∈ l ∧ ∀ u ∈ l, norm_sq u ≤ norm_sq v := by
  cases l with
  | nil => simp [select_max_norm] at h
  | cons x xs =>
    have hv : xs.foldl pick_larger x = v := by
      simpa [select_max_norm] using h
    obtain ⟨hmem, hmax⟩ := foldl_pick_larger_spec xs x
    rw [hv] at hmem hmax
    exact ⟨hmem, hmax⟩

/-- Comparing squared norms over ℚ compares Euclidean norms, since `sqrt`
is monotone and the cast of the sum of squares is what `np.linalg.norm`
takes the square root of. -/
theorem euclidean_norm_le_of_norm_sq_le {n : ℕ} {u v : Fin n → ℚ}
    (h : norm_sq u ≤ norm_sq v) : euclidean_norm u ≤ euclidean_norm v := by
  unfold euclidean_norm
  exact Real.sqrt_le_sqrt (by exact_mod_cast h)

/-- C2 (amended): on an initialized controller whose hierarchy contains
set tasks, a candidate mode's solution is kept as feasible if and only if
every *currently-active* set task — the set tasks of
`active_task_hierarchy`, the same list for every candidate mode, regardless
of which set tasks the mode itself contains — satisfies the sign check
(`current_value < lower` requires a positive projection,
`current_value > upper` a negative one, or the projection is numerically
~0), conjoined over all those active set tasks; and whenever a velocity is
published, it is a feasible candidate solution of maximal Euclidean
norm. -/
theorem update_publishes_max_norm_feasible_solution {n : ℕ}
    (pinv : PinvOracle ℚ) (s : ControllerState ℚ n)
    (hinit : TPIK.initialized s = true)
    (hset : has_set_tasks s.hierarchies = true) :
    (∀ solution : Fin n → ℚ,
      ((set_tasks_of s.active_task_hierarchy).all fun st =>
          set_task_satisfied st solution) = true ↔
        ∀ st ∈ set_tasks_of s.active_task_hierarchy,
          (st.current_value < st.lower ∧ 0 < st.jacobian ⬝ᵥ solution) ∨
          (st.upper < st.current_value ∧ st.jacobian ⬝ᵥ solution < 0) ∨
          |st.jacobian ⬝ᵥ solution| ≤ isclose_atol ℚ) ∧
    (feasible_solutions pinv s.hierarchies s.active_task_hierarchy ≠ [] →
      ∃ v, (TPIK.update pinv s).published = some v) ∧
    (∀ v, (TPIK.update pinv s).published = some v →
      v ∈ feasible_solutions pinv s.hierarchies s.active_task_hierarchy ∧
        ∀ u ∈ feasible_solutions pinv s.hierarchies s.active_task_hierarchy,
          euclidean_norm u ≤ euclidean_norm v) := by
  have hpub : (TPIK.update pinv s).published =
      select_max_norm
        (feasible_solutions pinv s.hierarchies s.active_task_hierarchy) := by
    simp [TPIK.update, hinit, hset]
  refine ⟨?_, ?_, ?_⟩
  · intro solution
    rw [List.all_eq_true]
    constructor
    · intro h st hst
      exact (set_task_satisfied_iff st solution).mp (h st hst)
    · intro h st hst
      exact (set_task_satisfied_iff st solution).mpr (h st hst)
  · intro hne
    rw [hpub]
    cases hfs : feasible_solutions pinv s.hierarchies s.active_task_hierarchy with
    | nil => exact absurd hfs hne
    | cons x xs => exact ⟨_, rfl⟩
  · intro v hv
    rw [hpub] at hv
    obtain ⟨hmem, hmax⟩ := select_max_norm_spec _ v hv
    exact ⟨hmem, fun u hu => euclidean_norm_le_of_norm_sq_le (hmax u hu)⟩

/-- C3: on an initialized controller whose hierarchy contains set tasks,
when no candidate mode's solution passes the feasibility check (the
feasible-solution list is empty), `update` publishes no velocity command
for that cycle — the `np.argmax` failure is caught, a warning is logged and
the method simply returns — and leaves the controller state untouched, so
the next timer tick retries the solve with refreshed context. -/
theorem update_publishes_nothing_when_no_mode_feasible {n : ℕ}
    (pinv : PinvOracle ℚ) (s : ControllerState ℚ n)
    (hinit : TPIK.initialized s = true)
    (hset : has_set_tasks s.hierarchies = true)
    (hempty : feasible_solutions pinv s.hierarchies s.active_task_hierarchy = []) :
    (TPIK.update pinv s).published = none ∧ (TPIK.update pinv s).final = s := by
  constructor
  · simp [TPIK.update, hinit, hset, hempty, select_max_norm]
  · simp [TPIK.update, hinit, hset]

/-- Witness for C3: on `state_infeasible` the feasible-solution list is
empty and the theorem applies: nothing is published and the state is
untouched. -/
theorem update_publishes_nothing_when_no_mode_feasible_witness :
    (TPIK.initialized state_infeasible = true ∧
      has_set_tasks state_infeasible.hierarchies = true ∧
      feasible_solutions pinv_transpose_q state_infeasible.hierarchies
        state_infeasible.active_task_hierarchy = []) ∧
    ((TPIK.update pinv_transpose_q state_infeasible).published = none ∧
      (TPIK.update pinv_transpose_q state_infeasible).final = state_infeasible) := by
  have hsol : TPIK.calculate_system_velocity pinv_transpose_q
      [Sum.inr set_task_violated] = ![(-2 : ℚ)] := by
    funext i
    fin_cases i
    norm_num [TPIK.calculate_system_velocity, TPIK.calculate_system_velocity_rec,
      calculate_nullspace, construct_augmented_jacobian, np_vstack,
      pinv_transpose_q, Task.jacobian, Task.error, Task.gain,
      Task.desired_value_dot, Task.rows, Matrix.mulVec, Matrix.dotProduct,
      Fin.sum_univ_one, Matrix.mul_apply, set_task_violated]
  have hsat : set_task_satisfied set_task_violated ![(-2 : ℚ)] = false := by
    norm_num [set_task_satisfied, isclose_atol, Matrix.dotProduct,
      Fin.sum_univ_one, set_task_violated]
  have hempty : feasible_solutions pinv_transpose_q state_infeasible.hierarchies
      state_infeasible.active_task_hierarchy = [] := by
    simp [feasible_solutions, state_infeasible, set_tasks_of, hsol, hsat]
  exact ⟨⟨rfl, rfl, hempty⟩,
    update_publishes_nothing_when_no_mode_feasible pinv_transpose_q
      state_infeasible rfl rfl hempty⟩

/-- Witness for C2: the theorem applied to the concrete two-mode state
`state_two_modes`, discharging the initialization and set-task
hypotheses. -/
theorem update_publishes_max_norm_feasible_solution_witness :
    (TPIK.initialized state_two_modes = true ∧
      has_set_tasks state_two_modes.hierarchies = true) ∧
    ((∀ solution : Fin 1 → ℚ,
      ((set_tasks_of state_two_modes.active_task_hierarchy).all fun st =>
          set_task_satisfied st solution) = true ↔
        ∀ st ∈ set_tasks_of state_two_modes.active_task_hierarchy,
          (st.current_value < st.lower ∧ 0 < st.jacobian ⬝ᵥ solution) ∨
          (st.upper < st.current_value ∧ st.jacobian ⬝ᵥ solution < 0) ∨
          |st.jacobian ⬝ᵥ solution| ≤ isclose_atol ℚ) ∧
    (feasible_solutions pinv_transpose_q state_two_modes.hierarchies
        state_two_modes.active_task_hierarchy ≠ [] →
      ∃ v, (TPIK.update pinv_transpose_q state_two_modes).published = some v) ∧
    (∀ v, (TPIK.update pinv_transpose_q state_two_modes).published = some v →
      v ∈ feasible_solutions pinv_transpose_q state_two_modes.hierarchies
            state_two_modes.active_task_hierarchy ∧
        ∀ u ∈ feasible_solutions pinv_transpose_q state_two_modes.hierarchies
            state_two_modes.active_task_hierarchy,
          euclidean_norm u ≤ euclidean_norm v)) :=
  ⟨⟨rfl, rfl⟩,
    update_publishes_max_norm_feasible_solution pinv_transpose_q
      state_two_modes rfl rfl⟩

/-- C2 (counterexample): the claim as stated — feasibility is the AND of
the sign checks over the set tasks *of that mode*, and the largest-norm
feasible candidate is published — is false on the code.  In
`state_mixed_modes` the first candidate mode contains no set task, so every
set task in that mode satisfies its sign check vacuously and the claim
classifies its solution feasible and publishes the largest-norm feasible
candidate; but the code checks the *active hierarchy's* set tasks against
every mode's solution, classifies that same solution infeasible (the check
evaluates to `false`), and — both candidates failing — publishes nothing at
all that cycle. -/
theorem update_feasibility_checks_active_not_mode_set_tasks :
    TPIK.initialized state_mixed_modes = true ∧
    has_set_tasks state_mixed_modes.hierarchies = true ∧
    [Sum.inl eq_task_small] ∈ state_mixed_modes.hierarchies ∧
    set_tasks_of ([Sum.inl eq_task_small] : List (Task ℚ 1)) = [] ∧
    ((set_tasks_of ([Sum.inl eq_task_small] : List (Task ℚ 1))).all fun st =>
      set_task_satisfied st (TPIK.calculate_system_velocity pinv_transpose_q
        [Sum.inl eq_task_small])) = true ∧
    ((set_tasks_of state_mixed_modes.active_task_hierarchy).all fun st =>
      set_task_satisfied st (TPIK.calculate_system_velocity pinv_transpose_q
        [Sum.inl eq_task_small])) = false ∧
    (TPIK.update pinv_transpose_q state_mixed_modes).published = none := by
  have hsol1 : TPIK.calculate_system_velocity pinv_transpose_q
      [Sum.inl eq_task_small] = ![(2 : ℚ)] := by
    funext i
    fin_cases i
    dsimp only [TPIK.calculate_system_velocity,
      TPIK.calculate_system_velocity_rec, eq_task_small, Task.rows,
      Task.jacobian, Task.error, Task.gain, Task.desired_value_dot, totalRows]
    norm_num [calculate_nullspace, construct_augmented_jacobian, np_vstack,
      pinv_transpose_q, Matrix.mulVec, Matrix.dotProduct, Fin.sum_univ_one,
      Matrix.mul_apply]
  have hsol2 : TPIK.calculate_system_velocity pinv_transpose_q
      [Sum.inl eq_task_small, Sum.inr set_task_above_upper] = ![(1 : ℚ)] := by
    funext i
    fin_cases i
    dsimp only [TPIK.calculate_system_velocity,
      TPIK.calculate_system_velocity_rec, eq_task_small, set_task_above_upper,
      Task.rows, Task.jacobian, Task.error, Task.gain, Task.desired_value_dot,
      totalRows]
    norm_num [calculate_nullspace, construct_augmented_jacobian, np_vstack,
      pinv_transpose_q, Matrix.mulVec, Matrix.dotProduct, Fin.sum_univ_one,
      Matrix.mul_apply, Task.rows, Task.jacobian, Task.error, Task.gain,
      Task.desired_value_dot, totalRows]
  have hsat1 : set_task_satisfied set_task_above_upper ![(2 : ℚ)] = false := by
    norm_num [set_task_satisfied, isclose_atol, Matrix.dotProduct,
      Fin.sum_univ_one, set_task_above_upper]
  have hsat2 : set_task_satisfied set_task_above_upper ![(1 : ℚ)] = false := by
    norm_num [set_task_satisfied, isclose_atol, Matrix.dotProduct,
      Fin.sum_univ_one, set_task_above_upper]
  refine ⟨rfl, rfl, by simp [state_mixed_modes], rfl, rfl, ?_, ?_⟩
  · rw [hsol1]
    simp [state_mixed_modes, set_tasks_of, hsat1]
  · have hempty : feasible_solutions pinv_transpose_q
        [[Sum.inl eq_task_small],
         [Sum.inl eq_task_small, Sum.inr set_task_above_upper]]
        [Sum.inl eq_task_small, Sum.inr set_task_above_upper] = [] := by
      simp [feasible_solutions, set_tasks_of, hsol1, hsol2, hsat1, hsat2]
    simp [TPIK.update, TPIK.initialized, has_set_tasks, Task.isSet,
      state_mixed_modes, hempty, select_max_norm]

/-- C8: for any three plane points whose edge cross product is nonzero
(three distinct non-collinear points) and any manipulator Jacobian, the
collision-avoidance Jacobian has a well-defined unit normal (positive norm),
its first six (vehicle) columns are exactly zero, and its manipulator
columns are the manipulator linear Jacobian projected onto the plane normal
`(p2−p1)×(p3−p1)/‖(p2−p1)×(p3−p1)‖` with one consistent global orientation
sign (`-1` here, matching the cross-product orientation). -/
theorem collision_avoidance_jacobian_projects_onto_plane_normal {k : ℕ}
    (p1 p2 p3 : Fin 3 → ℝ) (J_man : Matrix (Fin 6) (Fin k) ℝ)
    (h : np_cross (fun i => p2 i - p1 i) (fun i => p3 i - p1 i) ≠ 0) :
    0 < np_norm3 (np_cross (fun i => p2 i - p1 i) (fun i => p3 i - p1 i)) ∧
    (∀ (i : Fin 3) (c : Fin 6),
      calculate_vehicle_manipulator_collision_avoidance_jacobian p1 p2 p3 J_man
        i (Sum.inl c) = 0) ∧
    ∃ sgn : ℝ, (sgn = 1 ∨ sgn = -1) ∧
      ∀ (i : Fin 3) (c : Fin k),
        calculate_vehicle_manipulator_collision_avoidance_jacobian p1 p2 p3 J_man
          i (Sum.inr c) =
          sgn * linear_jacobian_projection (plane_unit_normal p1 p2 p3) J_man c := by
  refine ⟨?_, ?_, ?_⟩
  · set c := np_cross (fun i => p2 i - p1 i) (fun i => p3 i - p1 i) with hc
    obtain ⟨i, hi⟩ := Function.ne_iff.mp h
    have hi2 : 0 < c i ^ 2 := by
      have : c i ^ 2 ≠ 0 := pow_ne_zero 2 hi
      exact lt_of_le_of_ne (sq_nonneg _) (Ne.symm this)
    have hsum : 0 < c 0 ^ 2 + c 1 ^ 2 + c 2 ^ 2 := by
      fin_cases i
      · have h0 : 0 < c 0 ^ 2 := hi2
        linarith [sq_nonneg (c 1), sq_nonneg (c 2)]
      · have h0 : 0 < c 1 ^ 2 := hi2
        linarith [sq_nonneg (c 0), sq_nonneg (c 2)]
      · have h0 : 0 < c 2 ^ 2 := hi2
        linarith [sq_nonneg (c 0), sq_nonneg (c 1)]
    exact Real.sqrt_pos.mpr hsum
  · intro i c
    rfl
  · refine ⟨-1, Or.inr rfl, fun i c => ?_⟩
    show -(∑ r : Fin 3, _ * _) = _
    rw [neg_one_mul]
    rfl

/-- Witness for C8: the edge cross product of the XY-plane points
`(0,0,0), (1,0,0), (0,1,0)` is the nonzero vector `(0,0,1)`, and the
theorem applies to them with the concrete Jacobian `J_man_example`. -/
theorem collision_avoidance_jacobian_projects_onto_plane_normal_witness :
    (np_cross (fun i => plane_p2 i - plane_p1 i)
        (fun i => plane_p3 i - plane_p1 i) ≠ 0) ∧
    (0 < np_norm3 (np_cross (fun i => plane_p2 i - plane_p1 i)
        (fun i => plane_p3 i - plane_p1 i)) ∧
      (∀ (i : Fin 3) (c : Fin 6),
        calculate_vehicle_manipulator_collision_avoidance_jacobian plane_p1
          plane_p2 plane_p3 J_man_example i (Sum.inl c) = 0) ∧
      ∃ sgn : ℝ, (sgn = 1 ∨ sgn = -1) ∧
        ∀ (i : Fin 3) (c : Fin 1),
          calculate_vehicle_manipulator_collision_avoidance_jacobian plane_p1
            plane_p2 plane_p3 J_man_example i (Sum.inr c) =
            sgn * linear_jacobian_projection
              (plane_unit_normal plane_p1 plane_p2 plane_p3) J_man_example c) := by
  have hne : np_cross (fun i => plane_p2 i - plane_p1 i)
      (fun i => plane_p3 i - plane_p1 i) ≠ 0 := by
    intro h0
    have h2 := congrFun h0 2
    simp only [np_cross, Matrix.cons_val_two, Matrix.cons_val_zero,
      Matrix.cons_val_one, Matrix.head_cons, Matrix.vecHead, Matrix.vecTail,
      plane_p1, plane_p2, plane_p3, Pi.zero_apply] at h2
    norm_num at h2
  exact ⟨hne, collision_avoidance_jacobian_projects_onto_plane_normal
    plane_p1 plane_p2 plane_p3 J_man_example hne⟩

end Tpik
